import Mathlib

/-!
Verification of the Random Beep focus-timer core.

This file shallowly embeds the core logic of the extension:
* the random break-time generator (`src/background/break-generator.js`),
* the session state machine (`src/storage/session.js` alias `src/unnamed/part_004`,
  and `src/background/timer.js`),
* the short-break watchdog (`src/background/background.js`),
* the statistics aggregator (`src/storage/statistics.js`),
* the read accessors for settings, session and statistics
  (`src/storage/settings.js`, `src/storage/session.js`, `src/storage/statistics.js`).

Modelling conventions: JavaScript numbers are embedded as `ℚ` where real
division occurs (break times, durations) and as `ℤ` for millisecond
timestamps and counters; JavaScript strings are embedded as `List Char`
(string comparison in the source is lexicographic code-unit comparison,
which is the lexicographic order on `List Char`); a JavaScript object used
as a string-keyed map is embedded as an association list in insertion
order; `null`/absent is `Option.none`, and the truthiness tests that the
source performs on numbers (`if (session.pauseStartTime)`,
`settings.shortBreakDuration || 10`) are embedded as explicit comparisons
with `0`.
-/

/-! ### Random break generator (`src/background/break-generator.js`) -/

/-- Break count: `Math.min(Math.max(1, Math.floor(periodMinutes / 5)), 12)`
(lines 40 and 45 of `break-generator.js`). -/
def numberOfBreaks (periodMinutes : ℕ) : ℕ :=
  min (max 1 (periodMinutes / 5)) 12

/-- `segmentDuration = periodSeconds / (numberOfBreaks + 1)` in seconds
(line 48 of `break-generator.js`). -/
def segmentDuration (periodMinutes : ℕ) : ℚ :=
  (periodMinutes * 60 : ℚ) / ((numberOfBreaks periodMinutes : ℚ) + 1)

/-- Unclamped break time for loop index `i` (`1 ≤ i ≤ numberOfBreaks`):
`segmentStart + randomOffset` where
`segmentStart = startTimeMs + (i - 0.5) * segmentDuration * 1000` and
`randomOffset = (rand i - 0.5) * (0.3 * segmentDuration * 1000)`
(lines 53-60 of `break-generator.js`).  `rand i` is the `Math.random()`
draw of iteration `i`. -/
def rawBreakTime (periodMinutes : ℕ) (startTimeMs : ℚ) (rand : ℕ → ℚ) (i : ℕ) : ℚ :=
  (startTimeMs + ((i : ℚ) - 1/2) * segmentDuration periodMinutes * 1000)
    + (rand i - 1/2) * (3/10 * (segmentDuration periodMinutes * 1000))

/-- `minBreakTime = startTimeMs + 30000` (line 63). -/
def minBreakTime (startTimeMs : ℚ) : ℚ := startTimeMs + 30000

/-- `maxBreakTime = endTimeMs - 30000` where
`endTimeMs = startTimeMs + periodSeconds * 1000` (lines 32 and 64). -/
def maxBreakTime (periodMinutes : ℕ) (startTimeMs : ℚ) : ℚ :=
  startTimeMs + (periodMinutes * 60 : ℚ) * 1000 - 30000

/-- `generateRandomBreakTimes(periodMinutes, sessionStartTime)` for a numeric
start time: one clamped break time per loop iteration `i = 1 .. numberOfBreaks`
(`breakTime = Math.max(minBreakTime, Math.min(maxBreakTime, breakTime))`,
line 66), then `breakTimes.sort((a, b) => a - b)` (line 73). -/
def generateRandomBreakTimes (periodMinutes : ℕ) (startTimeMs : ℚ) (rand : ℕ → ℚ) : List ℚ :=
  (((List.range (numberOfBreaks periodMinutes)).map (fun k =>
      max (minBreakTime startTimeMs)
        (min (maxBreakTime periodMinutes startTimeMs)
          (rawBreakTime periodMinutes startTimeMs rand (k + 1))))).insertionSort (· ≤ ·))

/-- Minimum spacing between breaks.  Not present in
`src/background/break-generator.js`; the value comes from the design
document `src/random-beep-documentation.md` §6.2
(`const minSpacingSeconds = 60`), the only place in the repository where
the spec's `minSpacingSeconds` is defined. -/
def minSpacingSeconds : ℕ := 60

/-- The design document's "period too short" guard,
`possibleTimeRange = periodSeconds - minSpacingSeconds * (numberOfBreaks - 1) ≤ 0`,
evaluated with the break count the implementation actually uses. -/
def periodTooShort (periodMinutes : ℕ) : Prop :=
  (periodMinutes * 60 : ℤ) - (minSpacingSeconds : ℤ) * ((numberOfBreaks periodMinutes : ℤ) - 1) ≤ 0

instance (p : ℕ) : Decidable (periodTooShort p) := by
  unfold periodTooShort
  infer_instance

/-- The reduced break count the spec prescribes for a too-short period:
`max(1, floor(periodSeconds / minSpacingSeconds) - 1)`. -/
def reducedBreakCount (periodMinutes : ℕ) : ℕ :=
  max 1 (periodMinutes * 60 / minSpacingSeconds - 1)

/-! ### Session record and state machine (`src/storage/session.js`) -/

/-- `SessionState` enum (lines 14-20 of `session.js`). -/
inductive SessionState
  | idle
  | active
  | shortBreak
  | longBreak
  | paused
deriving DecidableEq, Repr

/-- The session record (lines 34-47 of `session.js`). -/
structure Session where
  id : List Char
  startTime : ℤ
  stateStartTime : ℤ
  shortBreaksTaken : List ℤ
  shortBreakCount : ℤ
  state : SessionState
  elapsedTime : ℤ
  pauseStartTime : Option ℤ
  totalPausedTime : ℤ
deriving DecidableEq, Repr

/-- `createNewSession()` (lines 34-47 of `session.js`); `newId` is the
generated id, `now` the `Date.now()` value at creation. -/
def createNewSession (newId : List Char) (now : ℤ) : Session :=
  { id := newId
    startTime := now
    stateStartTime := now
    shortBreaksTaken := []
    shortBreakCount := 0
    state := SessionState.idle
    elapsedTime := 0
    pauseStartTime := none
    totalPausedTime := 0 }

/-- JavaScript truthiness of a nullable millisecond timestamp:
`null`/`undefined` and `0` are falsy. -/
def truthyTime : Option ℤ → Bool
  | none => false
  | some t => t != 0

/-- `updateSessionState(session, newState)` (lines 88-115 of `session.js`):
no-op if the state is unchanged; entering `paused` from `active` records
`pauseStartTime`; entering `active` from `paused` adds
`now - pauseStartTime` to `totalPausedTime` and clears `pauseStartTime`
(guarded by the truthiness of `pauseStartTime`); every real transition sets
`state` and resets `stateStartTime`. -/
def updateSessionState (session : Session) (newState : SessionState) (now : ℤ) : Session :=
  if newState = session.state then session
  else
    let s1 :=
      if newState = SessionState.paused ∧ session.state = SessionState.active then
        { session with pauseStartTime := some now }
      else if newState = SessionState.active ∧ session.state = SessionState.paused then
        if truthyTime session.pauseStartTime then
          { session with
            totalPausedTime := session.totalPausedTime + (now - session.pauseStartTime.getD 0)
            pauseStartTime := none }
        else session
      else session
    { s1 with state := newState, stateStartTime := now }

/-- `recordShortBreak(session)` (lines 122-127 of `session.js`): appends
`Date.now()` to `shortBreaksTaken`, increments `shortBreakCount`, then
transitions to `shortBreak`. -/
def recordShortBreak (session : Session) (now : ℤ) : Session :=
  updateSessionState
    { session with
      shortBreaksTaken := session.shortBreaksTaken ++ [now]
      shortBreakCount := session.shortBreakCount + 1 }
    SessionState.shortBreak now

/-! ### Timer operations (`src/background/timer.js`) -/

/-- `pauseSession()` (lines 108-123 of `timer.js`): no-op unless `active`. -/
def pauseSession (session : Session) (now : ℤ) : Session :=
  if session.state ≠ SessionState.active then session
  else updateSessionState session SessionState.paused now

/-- `resumeSession()` (lines 129-144 of `timer.js`): no-op unless `paused`. -/
def resumeSession (session : Session) (now : ℤ) : Session :=
  if session.state ≠ SessionState.paused then session
  else updateSessionState session SessionState.active now

/-- `startSession()` (lines 68-102 of `timer.js`): unconditionally replaces
the current session with `createNewSession()` and sets it `active`.
`nowCreate` and `nowActivate` are the two consecutive `Date.now()` reads.
The old session is used only to clear its alarms (an external effect). -/
def startSession (_old : Session) (newId : List Char) (nowCreate nowActivate : ℤ) : Session :=
  updateSessionState (createNewSession newId nowCreate) SessionState.active nowActivate

/-- `resetSession()` (lines 150-166 of `timer.js`): replaces the session
with a fresh idle one. -/
def resetSession (_old : Session) (newId : List Char) (now : ℤ) : Session :=
  createNewSession newId now

/-- One firing of the once-per-second timer callback (lines 350-370 of
`timer.js`), restricted to its effect on the session record: while
`active`, if `(now - stateStartTime) / 1000 > 0` then `elapsedTime += 1`. -/
def timerTick (session : Session) (now : ℤ) : Session :=
  if session.state = SessionState.active then
    if ((now : ℚ) - (session.stateStartTime : ℚ)) / 1000 > 0 then
      { session with elapsedTime := session.elapsedTime + 1 }
    else session
  else session

/-- `endShortBreak()` (lines 248-287 of `timer.js`): no-op unless in
`shortBreak`, otherwise transitions to `active`. -/
def endShortBreak (session : Session) (now : ℤ) : Session :=
  if session.state ≠ SessionState.shortBreak then session
  else updateSessionState session SessionState.active now

/-- The session-record effect of `startShortBreak()` (line 182 of
`timer.js`): `recordShortBreak`. -/
def startShortBreak (session : Session) (now : ℤ) : Session :=
  recordShortBreak session now

/-- The session-record effect of `startLongBreak()` (line 305 of
`timer.js`): transition to `longBreak`. -/
def startLongBreak (session : Session) (now : ℤ) : Session :=
  updateSessionState session SessionState.longBreak now

/-- `pat` occurs as a contiguous substring of `l`
(JavaScript `String.prototype.includes`). -/
def listContainsSub : List Char → List Char → Bool
  | [], pat => pat.isEmpty
  | c :: t, pat => pat.isPrefixOf (c :: t) || listContainsSub t pat

/-- `isShortBreakAlarm(alarmName)`: `alarmName.includes('_short_break_')`
(line 193 of `break-generator.js`). -/
def isShortBreakAlarm (alarmName : List Char) : Bool :=
  listContainsSub alarmName "_short_break_".data

/-- `isLongBreakAlarm(alarmName)`: `alarmName.includes('_long_break')`
(line 202 of `break-generator.js`). -/
def isLongBreakAlarm (alarmName : List Char) : Bool :=
  listContainsSub alarmName "_long_break".data

/-- Kind of break started by an alarm. -/
inductive BreakKind
  | short
  | long
deriving DecidableEq, Repr

/-- `handleAlarm(alarm)` (lines 414-457 of `timer.js`), restricted to its
session effect.  Returns the updated session together with the kind of
break started, if any: the alarm is ignored when its name does not start
with the current session's id (`alarm.name.startsWith(currentSession.id)`),
or when the session is not `active`. -/
def handleAlarm (session : Session) (alarmName : List Char) (now : ℤ) :
    Session × Option BreakKind :=
  if ¬ session.id.isPrefixOf alarmName then (session, none)
  else if session.state ≠ SessionState.active then (session, none)
  else if isShortBreakAlarm alarmName then (startShortBreak session now, some BreakKind.short)
  else if isLongBreakAlarm alarmName then (startLongBreak session now, some BreakKind.long)
  else (session, none)

/-- The session-mutating operations of the state machine, as one type. -/
inductive SessionOp
  | updState (newState : SessionState) (now : ℤ)
  | record (now : ℤ)
  | pause (now : ℤ)
  | resume (now : ℤ)
  | reset (newId : List Char) (now : ℤ)
  | tick (now : ℤ)

/-- Apply a state-machine operation to a session. -/
def applySessionOp (op : SessionOp) (session : Session) : Session :=
  match op with
  | SessionOp.updState st now => updateSessionState session st now
  | SessionOp.record now => recordShortBreak session now
  | SessionOp.pause now => pauseSession session now
  | SessionOp.resume now => resumeSession session now
  | SessionOp.reset newId now => resetSession session newId now
  | SessionOp.tick now => timerTick session now

/-- The lockstep invariant of §3 of the spec:
`shortBreakCount` equals the length of `shortBreaksTaken`. -/
def countInv (session : Session) : Prop :=
  session.shortBreakCount = (session.shortBreaksTaken.length : ℤ)

instance (s : Session) : Decidable (countInv s) := by
  unfold countInv
  infer_instance

/-! ### Settings (`src/storage/settings.js`) -/

/-- Validated settings record (`getDefaultSettings()` lists every field,
lines 15-32 of `settings.js`; the nested `customTheme` object is flattened
into its two colour fields). -/
structure Settings where
  shortPeriodDuration : ℚ
  shortBreakDuration : ℚ
  longPeriodDuration : ℚ
  longBreakDuration : ℚ
  notificationSound : Bool
  shortBreakSound : List Char
  longBreakSound : List Char
  autoStartNextSession : Bool
  theme : List Char
  customThemePrimary : List Char
  customThemeSecondary : List Char
  language : List Char
deriving DecidableEq, Repr

/-- `getDefaultSettings()` (lines 15-32 of `settings.js`). -/
def getDefaultSettings : Settings :=
  { shortPeriodDuration := 5
    shortBreakDuration := 10
    longPeriodDuration := 90
    longBreakDuration := 20
    notificationSound := true
    shortBreakSound := "mixkit-message-pop-alert-2354.mp3".data
    longBreakSound := "mixkit-correct-answer-tone-2870.wav".data
    autoStartNextSession := false
    theme := "default".data
    customThemePrimary := "#3F51B5".data
    customThemeSecondary := "#FFC107".data
    language := "en".data }

/-- A stored (unvalidated) settings object.  A numeric field is `none` when
`Number(value)` is `NaN` (absent field, or non-numeric value); a boolean
field is `none` when the stored value is not of type boolean; a sound field
is `none` when not a string; `customTheme` is `none` unless it is an object
with two string colours; `theme`/`language` hold the stored string, if any. -/
structure RawSettings where
  shortPeriodDuration : Option ℚ
  shortBreakDuration : Option ℚ
  longPeriodDuration : Option ℚ
  longBreakDuration : Option ℚ
  notificationSound : Option Bool
  shortBreakSound : Option (List Char)
  longBreakSound : Option (List Char)
  autoStartNextSession : Option Bool
  theme : Option (List Char)
  customTheme : Option (List Char × List Char)
  language : Option (List Char)
deriving DecidableEq, Repr

/-- `validateNumericSetting(value, defaultValue, min, max)`
(lines 163-169 of `settings.js`). -/
def validateNumericSetting (value : Option ℚ) (defaultValue lo hi : ℚ) : ℚ :=
  match value with
  | none => defaultValue
  | some x => if x < lo ∨ hi < x then defaultValue else x

/-- A sound-name field: kept only when it is a string and truthy (nonempty). -/
def validateSound (value : Option (List Char)) (defaultValue : List Char) : List Char :=
  match value with
  | none => defaultValue
  | some s => if s = [] then defaultValue else s

/-- `validateSettings(settings)` (lines 81-153 of `settings.js`); the
argument is `none` when `settings` is falsy, in which case the defaults
are returned unchanged. -/
def validateSettings (raw : Option RawSettings) : Settings :=
  match raw with
  | none => getDefaultSettings
  | some s =>
    let d := getDefaultSettings
    let theme :=
      if s.theme = some "default".data ∨ s.theme = some "dark".data ∨
          s.theme = some "light".data ∨ s.theme = some "custom".data then
        s.theme.getD d.theme
      else d.theme
    { shortPeriodDuration := validateNumericSetting s.shortPeriodDuration d.shortPeriodDuration 1 60
      shortBreakDuration := validateNumericSetting s.shortBreakDuration d.shortBreakDuration 5 60
      longPeriodDuration := validateNumericSetting s.longPeriodDuration d.longPeriodDuration 15 240
      longBreakDuration := validateNumericSetting s.longBreakDuration d.longBreakDuration 1 60
      notificationSound := s.notificationSound.getD d.notificationSound
      shortBreakSound := validateSound s.shortBreakSound d.shortBreakSound
      longBreakSound := validateSound s.longBreakSound d.longBreakSound
      autoStartNextSession := s.autoStartNextSession.getD d.autoStartNextSession
      theme := theme
      customThemePrimary :=
        if theme = "custom".data then
          match s.customTheme with
          | some pair => pair.1
          | none => d.customThemePrimary
        else d.customThemePrimary
      customThemeSecondary :=
        if theme = "custom".data then
          match s.customTheme with
          | some pair => pair.2
          | none => d.customThemeSecondary
        else d.customThemeSecondary
      language :=
        if s.language = some "en".data ∨ s.language = some "zh".data then
          s.language.getD d.language
        else d.language }

/-! ### Short-break watchdog (`src/background/background.js`, `timer.js`) -/

/-- The watchdog polling period: `setInterval(..., 30000)` (line 111 of
`background.js`). -/
def startShortBreakWatchdogIntervalMs : ℕ := 30000

/-- Delay of the in-process secondary (failsafe) timeout armed by
`startShortBreak`: `(shortBreakDuration + 5) * 1000` (line 230 of
`timer.js`). -/
def shortBreakFailsafeDelayMs (shortBreakDuration : ℚ) : ℚ :=
  (shortBreakDuration + 5) * 1000

/-- `settings.shortBreakDuration || 10` (line 95 of `background.js`,
line 198 of `timer.js`): falsy (`0`) falls back to `10`. -/
def effectiveShortBreakDuration (settings : Settings) : ℚ :=
  if settings.shortBreakDuration = 0 then 10 else settings.shortBreakDuration

/-- One firing of the watchdog body (lines 88-111 of `background.js`):
if the session is in `shortBreak` with a truthy `stateStartTime` and
`(now - stateStartTime) / 1000` exceeds `shortBreakDuration + 15`, force
the break to end via `endShortBreak`. -/
def watchdogPoll (session : Session) (settings : Settings) (now : ℤ) : Session :=
  if session.state = SessionState.shortBreak ∧ session.stateStartTime ≠ 0 then
    if ((now : ℚ) - (session.stateStartTime : ℚ)) / 1000 >
        effectiveShortBreakDuration settings + 15 then
      endShortBreak session now
    else session
  else session

/-- One firing of the in-process failsafe timeout body (lines 225-230 of
`timer.js`): if still in `shortBreak`, force the break to end. -/
def shortBreakFailsafeFire (session : Session) (now : ℤ) : Session :=
  if session.state = SessionState.shortBreak then endShortBreak session now else session

/-! ### Statistics (`src/storage/statistics.js`) -/

/-- One daily (or weekly) statistics bucket (`getDefaultDailyStats()`,
lines 49-56 of `statistics.js`). -/
structure DailyStats where
  totalFocusTime : ℤ
  shortBreaksTaken : ℤ
  longBreaksTaken : ℤ
  sessionsCompleted : ℤ
deriving DecidableEq, Repr

/-- `getDefaultDailyStats()`: the zero bucket. -/
def getDefaultDailyStats : DailyStats :=
  { totalFocusTime := 0, shortBreaksTaken := 0, longBreaksTaken := 0, sessionsCompleted := 0 }

/-- A string-keyed bucket map (`stats.dailyFocus` / `stats.weeklyFocus`),
as an association list in object-insertion order. -/
abbrev StatsMap := List (List Char × DailyStats)

/-- The statistics object (`getDefaultStatistics()`, lines 38-43). -/
structure Statistics where
  dailyFocus : StatsMap
  weeklyFocus : StatsMap
deriving DecidableEq, Repr

/-- `getDefaultStatistics()`: both maps empty. -/
def getDefaultStatistics : Statistics :=
  { dailyFocus := [], weeklyFocus := [] }

/-- Property read `m[key]` on a string-keyed object. -/
def getBucket : StatsMap → List Char → Option DailyStats
  | [], _ => none
  | (k, v) :: t, key => if k = key then some v else getBucket t key

/-- The per-bucket delta of `updateStatistics` (lines 114-124 of
`statistics.js`): add the three deltas and increment `sessionsCompleted`
by `longBreaks > 0 ? 1 : 0`. -/
def bumpBucket (b : DailyStats) (focusTime shortBreaks longBreaks : ℤ) : DailyStats :=
  { totalFocusTime := b.totalFocusTime + focusTime
    shortBreaksTaken := b.shortBreaksTaken + shortBreaks
    longBreaksTaken := b.longBreaksTaken + longBreaks
    sessionsCompleted := b.sessionsCompleted + (if 0 < longBreaks then 1 else 0) }

/-- Initialise-if-absent then add the deltas to `m[key]`
(lines 104-124 of `statistics.js`): a missing bucket is first created as
the zero bucket (appended, as object insertion order), then updated. -/
def bumpMap (m : StatsMap) (key : List Char) (focusTime shortBreaks longBreaks : ℤ) : StatsMap :=
  let init := if (getBucket m key).isSome then m else m ++ [(key, getDefaultDailyStats)]
  init.map (fun e => if e.1 = key then (e.1, bumpBucket e.2 focusTime shortBreaks longBreaks) else e)

/-- One half of `cleanupOldStatistics` (lines 139-149 / 152-162 of
`statistics.js`): if the map has more than `n` keys, keep the `n`
lexicographically greatest (`Object.keys(m).sort().reverse().slice(0, n)`),
rebuilding the object in that key order with the old values. -/
def keepMostRecent (n : ℕ) (m : StatsMap) : StatsMap :=
  let keys := m.map Prod.fst
  if n < keys.length then
    (((keys.insertionSort (· ≤ ·)).reverse).take n).map
      (fun k => (k, (getBucket m k).getD getDefaultDailyStats))
  else m

/-- `cleanupOldStatistics(stats)` (lines 137-165 of `statistics.js`):
keep the last 30 daily and 12 weekly buckets. -/
def cleanupOldStatistics (stats : Statistics) : Statistics :=
  { dailyFocus := keepMostRecent 30 stats.dailyFocus
    weeklyFocus := keepMostRecent 12 stats.weeklyFocus }

/-- `updateStatistics(focusTime, shortBreaks, longBreaks)` (lines 98-130 of
`statistics.js`), as a pure function of the loaded statistics and of the
`today` / `week` keys computed from the clock: zero-initialise missing
buckets, add the deltas to both, then clean up old data. -/
def updateStatistics (stats : Statistics) (today week : List Char)
    (focusTime shortBreaks longBreaks : ℤ) : Statistics :=
  cleanupOldStatistics
    { dailyFocus := bumpMap stats.dailyFocus today focusTime shortBreaks longBreaks
      weeklyFocus := bumpMap stats.weeklyFocus week focusTime shortBreaks longBreaks }

/-! ### Read accessors (`session.js`, `settings.js`, `statistics.js`) -/

/-- Outcome of a `chrome.storage` read for a key: the platform reported an
error (`chrome.runtime.lastError` set), the key was absent (falsy value),
or a value was found. -/
inductive StoreResult (α : Type)
  | storeError
  | missing
  | found (value : α)

/-- `loadSessionState()` (lines 70-80 of `session.js`): the promise
executor only ever calls `resolve` — on error or absence it resolves with
a fresh session.  `newId`/`now` feed the `createNewSession()` fallback. -/
def loadSessionState (r : StoreResult Session) (newId : List Char) (now : ℤ) :
    Except (List Char) Session :=
  match r with
  | StoreResult.storeError => Except.ok (createNewSession newId now)
  | StoreResult.missing => Except.ok (createNewSession newId now)
  | StoreResult.found s => Except.ok s

/-- `loadSettings()` (lines 61-74 of `settings.js`): resolves with the
defaults on error or absence, and with `validateSettings(data.settings)`
on a found value; it never rejects. -/
def loadSettings (r : StoreResult RawSettings) : Except (List Char) Settings :=
  match r with
  | StoreResult.storeError => Except.ok getDefaultSettings
  | StoreResult.missing => Except.ok getDefaultSettings
  | StoreResult.found raw => Except.ok (validateSettings (some raw))

/-- `loadStatistics()` (lines 62-72 of `statistics.js`): resolves with the
empty statistics structure on error or absence; it never rejects. -/
def loadStatistics (r : StoreResult Statistics) : Except (List Char) Statistics :=
  match r with
  | StoreResult.storeError => Except.ok getDefaultStatistics
  | StoreResult.missing => Except.ok getDefaultStatistics
  | StoreResult.found st => Except.ok st

/-! ### Concrete statistics states used as test inputs -/

/-- A day key strictly below every key of `futureDays`. -/
def dec31 : List Char := "2025-12-31".data

/-- A week key. -/
def w01 : List Char := "2026-W01".data

/-- Thirty distinct daily keys, all lexicographically greater than
`dec31`. -/
def futureDays : List (List Char) :=
  ["2026-01-01".data, "2026-01-02".data, "2026-01-03".data, "2026-01-04".data,
   "2026-01-05".data, "2026-01-06".data, "2026-01-07".data, "2026-01-08".data,
   "2026-01-09".data, "2026-01-10".data, "2026-01-11".data, "2026-01-12".data,
   "2026-01-13".data, "2026-01-14".data, "2026-01-15".data, "2026-01-16".data,
   "2026-01-17".data, "2026-01-18".data, "2026-01-19".data, "2026-01-20".data,
   "2026-01-21".data, "2026-01-22".data, "2026-01-23".data, "2026-01-24".data,
   "2026-01-25".data, "2026-01-26".data, "2026-01-27".data, "2026-01-28".data,
   "2026-01-29".data, "2026-01-30".data]

/-- A statistics state whose 30 daily buckets all have keys greater than
`dec31`. -/
def futureStats : Statistics :=
  { dailyFocus := futureDays.map (fun k => (k, getDefaultDailyStats))
    weeklyFocus := [] }

/-- Thirty-five distinct daily keys. -/
def thirtyFiveDays : List (List Char) :=
  ["2026-02-01".data, "2026-02-02".data, "2026-02-03".data, "2026-02-04".data,
   "2026-02-05".data, "2026-02-06".data, "2026-02-07".data, "2026-02-08".data,
   "2026-02-09".data, "2026-02-10".data, "2026-02-11".data, "2026-02-12".data,
   "2026-02-13".data, "2026-02-14".data, "2026-02-15".data, "2026-02-16".data,
   "2026-02-17".data, "2026-02-18".data, "2026-02-19".data, "2026-02-20".data,
   "2026-02-21".data, "2026-02-22".data, "2026-02-23".data, "2026-02-24".data,
   "2026-02-25".data, "2026-02-26".data, "2026-02-27".data, "2026-02-28".data,
   "2026-03-01".data, "2026-03-02".data, "2026-03-03".data, "2026-03-04".data,
   "2026-03-05".data, "2026-03-06".data, "2026-03-07".data]

/-- A statistics state with 35 distinct daily buckets. -/
def thirtyFiveStats : Statistics :=
  { dailyFocus := thirtyFiveDays.map (fun k => (k, getDefaultDailyStats))
    weeklyFocus := [] }

/-! ## Break-generator lemmas -/

lemma one_le_numberOfBreaks (p : ℕ) : 1 ≤ numberOfBreaks p := by
  unfold numberOfBreaks
  omega

lemma numberOfBreaks_le_p (p : ℕ) (hp : 1 ≤ p) : numberOfBreaks p ≤ p := by
  unfold numberOfBreaks
  omega

lemma numberOfBreaks_two_le (p : ℕ) (h : 2 ≤ numberOfBreaks p) :
    5 * numberOfBreaks p ≤ p ∧ 10 ≤ p := by
  unfold numberOfBreaks at *
  omega

lemma segmentDuration_pos (p : ℕ) (hp : 1 ≤ p) : 0 < segmentDuration p := by
  unfold segmentDuration
  apply div_pos
  · have h1 : (1 : ℚ) ≤ (p : ℚ) := by exact_mod_cast hp
    nlinarith
  · positivity

lemma segmentDuration_mul (p : ℕ) :
    segmentDuration p * ((numberOfBreaks p : ℚ) + 1) = (p * 60 : ℚ) := by
  unfold segmentDuration
  have hne : ((numberOfBreaks p : ℚ) + 1) ≠ 0 := by positivity
  field_simp

lemma segmentDuration_ge_200 (p : ℕ) (h2 : 2 ≤ numberOfBreaks p) :
    200 ≤ segmentDuration p := by
  obtain ⟨h5, h10⟩ := numberOfBreaks_two_le p h2
  unfold segmentDuration
  rw [le_div_iff₀ (by positivity)]
  have h5q : 5 * (numberOfBreaks p : ℚ) ≤ (p : ℚ) := by exact_mod_cast h5
  have h10q : (10 : ℚ) ≤ (p : ℚ) := by exact_mod_cast h10
  nlinarith

lemma rawBreakTime_bounds (p : ℕ) (start : ℚ) (rand : ℕ → ℚ) (i : ℕ)
    (h2 : 2 ≤ numberOfBreaks p) (hi1 : 1 ≤ i) (hic : i ≤ numberOfBreaks p)
    (hr0 : 0 ≤ rand i) (hr1 : rand i < 1) :
    minBreakTime start < rawBreakTime p start rand i ∧
    rawBreakTime p start rand i < maxBreakTime p start := by
  have hs200 := segmentDuration_ge_200 p h2
  have hspos : 0 < segmentDuration p := by linarith
  have hi1q : (1 : ℚ) ≤ (i : ℚ) := by exact_mod_cast hi1
  have hicq : (i : ℚ) ≤ (numberOfBreaks p : ℚ) := by exact_mod_cast hic
  have hmax : maxBreakTime p start
      = start + segmentDuration p * ((numberOfBreaks p : ℚ) + 1) * 1000 - 30000 := by
    unfold maxBreakTime
    rw [segmentDuration_mul]
  constructor
  · unfold rawBreakTime minBreakTime
    have hA : (1/2 : ℚ) * (segmentDuration p * 1000)
        ≤ ((i : ℚ) - 1/2) * (segmentDuration p * 1000) := by
      apply mul_le_mul_of_nonneg_right (by linarith) (by nlinarith)
    have hB : (-(1/2) : ℚ) * (3/10 * (segmentDuration p * 1000))
        ≤ (rand i - 1/2) * (3/10 * (segmentDuration p * 1000)) := by
      apply mul_le_mul_of_nonneg_right (by linarith) (by nlinarith)
    nlinarith
  · rw [hmax]
    unfold rawBreakTime
    have hC : ((i : ℚ) - 1/2) * (segmentDuration p * 1000)
        ≤ ((numberOfBreaks p : ℚ) - 1/2) * (segmentDuration p * 1000) := by
      apply mul_le_mul_of_nonneg_right (by linarith) (by nlinarith)
    have hD : (rand i - 1/2) * (3/10 * (segmentDuration p * 1000))
        < (1/2 : ℚ) * (3/10 * (segmentDuration p * 1000)) := by
      apply mul_lt_mul_of_pos_right (by linarith) (by nlinarith)
    nlinarith

lemma rawBreakTime_strictMono (p : ℕ) (start : ℚ) (rand : ℕ → ℚ) (i j : ℕ)
    (hp : 1 ≤ p) (hij : i < j)
    (_hri0 : 0 ≤ rand i) (hri1 : rand i < 1) (hrj0 : 0 ≤ rand j) (_hrj1 : rand j < 1) :
    rawBreakTime p start rand i < rawBreakTime p start rand j := by
  have hspos := segmentDuration_pos p hp
  have hijq : (i : ℚ) + 1 ≤ (j : ℚ) := by exact_mod_cast hij
  unfold rawBreakTime
  have h1 : segmentDuration p * 1000 ≤ ((j : ℚ) - (i : ℚ)) * (segmentDuration p * 1000) := by
    nlinarith
  have h2 : (-1 : ℚ) * (3/10 * (segmentDuration p * 1000))
      < (rand j - rand i) * (3/10 * (segmentDuration p * 1000)) := by
    apply mul_lt_mul_of_pos_right (by linarith) (by nlinarith)
  nlinarith

lemma min_le_maxBreakTime (p : ℕ) (start : ℚ) (hp : 1 ≤ p) :
    minBreakTime start ≤ maxBreakTime p start := by
  unfold minBreakTime maxBreakTime
  have h1 : (1 : ℚ) ≤ (p : ℚ) := by exact_mod_cast hp
  nlinarith

lemma generateRandomBreakTimes_facts (p : ℕ) (start : ℚ) (rand : ℕ → ℚ)
    (hp : 1 ≤ p) (hr : ∀ i, 0 ≤ rand i ∧ rand i < 1) :
    (generateRandomBreakTimes p start rand).length = numberOfBreaks p ∧
    (generateRandomBreakTimes p start rand).Pairwise (· < ·) ∧
    ∀ x ∈ generateRandomBreakTimes p start rand,
      minBreakTime start ≤ x ∧ x ≤ maxBreakTime p start := by
  unfold generateRandomBreakTimes
  set f : ℕ → ℚ := fun k =>
    max (minBreakTime start)
      (min (maxBreakTime p start) (rawBreakTime p start rand (k + 1))) with hf
  set L : List ℚ := (List.range (numberOfBreaks p)).map f with hLdef
  have hperm : List.Perm (L.insertionSort (· ≤ ·)) L := List.perm_insertionSort _ _
  refine ⟨?_, ?_, ?_⟩
  · rw [hperm.length_eq]
    simp [hLdef]
  · rcases eq_or_lt_of_le (one_le_numberOfBreaks p) with hc1 | hc2
    · have hL1 : L = [f 0] := by
        rw [hLdef, ← hc1]
        rfl
      rw [hL1]
      simp [List.insertionSort, List.orderedInsert]
    · have hclamp : ∀ k ∈ List.range (numberOfBreaks p), f k = rawBreakTime p start rand (k + 1) := by
        intro k hk
        have hk' : k < numberOfBreaks p := List.mem_range.mp hk
        obtain ⟨hlo, hhi⟩ := rawBreakTime_bounds p start rand (k + 1) hc2 (by omega) (by omega)
          (hr (k + 1)).1 (hr (k + 1)).2
        rw [hf]
        simp only []
        rw [min_eq_right (le_of_lt hhi), max_eq_right (le_of_lt hlo)]
      have hL : L = (List.range (numberOfBreaks p)).map
          (fun k => rawBreakTime p start rand (k + 1)) := by
        rw [hLdef]
        exact List.map_congr_left hclamp
      have hpw : L.Pairwise (· < ·) := by
        rw [hL, List.pairwise_map]
        refine (List.pairwise_lt_range (numberOfBreaks p)).imp ?_
        intro a b hab
        exact rawBreakTime_strictMono p start rand (a + 1) (b + 1) hp (by omega)
          (hr (a + 1)).1 (hr (a + 1)).2 (hr (b + 1)).1 (hr (b + 1)).2
      have hsorted : List.Sorted (· ≤ ·) L := hpw.imp le_of_lt
      have heq : L.insertionSort (· ≤ ·) = L :=
        List.eq_of_perm_of_sorted hperm (List.sorted_insertionSort _ _) hsorted
      rw [heq]
      exact hpw
  · intro x hx
    have hxL : x ∈ L := hperm.mem_iff.mp hx
    rw [hLdef] at hxL
    obtain ⟨k, _, hxk⟩ := List.mem_map.mp hxL
    rw [← hxk, hf]
    constructor
    · exact le_max_left _ _
    · exact max_le (min_le_maxBreakTime p start hp) (min_le_left _ _)

/-- Claim C1: for every `periodMinutes` in `[1, 240]`, every start timestamp and
every sequence of random draws in `[0, 1)`, `generateRandomBreakTimes`
returns exactly `min(12, max(1, ⌊periodMinutes / 5⌋))` timestamps, sorted
strictly increasing, each within
`[start + 30000, start + periodMinutes * 60000 - 30000]`. -/
theorem generateRandomBreakTimes_count_sorted_bounded
    (p : ℕ) (start : ℚ) (rand : ℕ → ℚ)
    (hp1 : 1 ≤ p) (_hp2 : p ≤ 240) (hr : ∀ i, 0 ≤ rand i ∧ rand i < 1) :
    (generateRandomBreakTimes p start rand).length = min 12 (max 1 (p / 5)) ∧
    (generateRandomBreakTimes p start rand).Pairwise (· < ·) ∧
    ∀ x ∈ generateRandomBreakTimes p start rand,
      start + 30000 ≤ x ∧ x ≤ start + (p : ℚ) * 60000 - 30000 := by
  obtain ⟨hlen, hpw, hbounds⟩ := generateRandomBreakTimes_facts p start rand hp1 hr
  refine ⟨?_, hpw, ?_⟩
  · rw [hlen]
    unfold numberOfBreaks
    exact Nat.min_comm _ _
  · intro x hx
    obtain ⟨hlo, hhi⟩ := hbounds x hx
    unfold minBreakTime at hlo
    unfold maxBreakTime at hhi
    constructor
    · linarith
    · nlinarith

theorem generateRandomBreakTimes_count_sorted_bounded_witness :
    (1 ≤ 5 ∧ 5 ≤ 240 ∧ ∀ i : ℕ, 0 ≤ (fun _ : ℕ => (0 : ℚ)) i ∧ (fun _ : ℕ => (0 : ℚ)) i < 1) ∧
    ((generateRandomBreakTimes 5 0 (fun _ => 0)).length = min 12 (max 1 (5 / 5)) ∧
      (generateRandomBreakTimes 5 0 (fun _ => 0)).Pairwise (· < ·) ∧
      ∀ x ∈ generateRandomBreakTimes 5 0 (fun _ => 0),
        (0 : ℚ) + 30000 ≤ x ∧ x ≤ 0 + (5 : ℚ) * 60000 - 30000) :=
  ⟨⟨by omega, by omega, fun i => ⟨le_refl 0, by norm_num⟩⟩,
    generateRandomBreakTimes_count_sorted_bounded 5 0 (fun _ => 0)
      (by omega) (by omega) (fun i => ⟨le_refl 0, by norm_num⟩)⟩

/-- Claim C6: the implementation's break count never needs the spec's too-short
reduction.  For every `periodMinutes` in `[1, 240]`: the design document's
"period too short" condition (`periodSeconds ≤ minSpacingSeconds * (count - 1)`
with `minSpacingSeconds = 60`) never holds, so the reduction clause holds
vacuously; and the generator indeed never produces invalid or overlapping
timestamps — its output is strictly increasing and stays within
`[start + 30000, start + periodMinutes * 60000 - 30000]` for all draws. -/
theorem breakCount_reduction_vacuous (p : ℕ) (hp1 : 1 ≤ p) (_hp2 : p ≤ 240) :
    ¬ periodTooShort p ∧
    (periodTooShort p → numberOfBreaks p = reducedBreakCount p) ∧
    ∀ start rand, (∀ i : ℕ, 0 ≤ rand i ∧ rand i < 1) →
      (generateRandomBreakTimes p start rand).Pairwise (· < ·) ∧
      ∀ x ∈ generateRandomBreakTimes p start rand,
        start + 30000 ≤ x ∧ x ≤ start + (p : ℚ) * 60000 - 30000 := by
  have hnot : ¬ periodTooShort p := by
    have hle := numberOfBreaks_le_p p hp1
    unfold periodTooShort minSpacingSeconds
    have h1 := one_le_numberOfBreaks p
    push_cast
    intro hcon
    have : (numberOfBreaks p : ℤ) ≤ (p : ℤ) := by exact_mod_cast hle
    omega
  refine ⟨hnot, fun h => absurd h hnot, ?_⟩
  intro start rand hr
  obtain ⟨_, hpw, hbounds⟩ := generateRandomBreakTimes_facts p start rand hp1 hr
  refine ⟨hpw, ?_⟩
  intro x hx
  obtain ⟨hlo, hhi⟩ := hbounds x hx
  unfold minBreakTime at hlo
  unfold maxBreakTime at hhi
  exact ⟨by linarith, by nlinarith⟩

theorem breakCount_reduction_vacuous_witness :
    (1 ≤ 7 ∧ 7 ≤ 240) ∧ ¬ periodTooShort 7 :=
  ⟨⟨by omega, by omega⟩, (breakCount_reduction_vacuous 7 (by omega) (by omega)).1⟩

/-! ## Session state-machine lemmas -/

lemma updateSessionState_elapsedTime (s : Session) (st : SessionState) (now : ℤ) :
    (updateSessionState s st now).elapsedTime = s.elapsedTime := by
  unfold updateSessionState
  split_ifs <;> rfl

lemma updateSessionState_shortBreakCount (s : Session) (st : SessionState) (now : ℤ) :
    (updateSessionState s st now).shortBreakCount = s.shortBreakCount := by
  unfold updateSessionState
  split_ifs <;> rfl

lemma updateSessionState_shortBreaksTaken (s : Session) (st : SessionState) (now : ℤ) :
    (updateSessionState s st now).shortBreaksTaken = s.shortBreaksTaken := by
  unfold updateSessionState
  split_ifs <;> rfl

lemma updateSessionState_state (s : Session) (st : SessionState) (now : ℤ) :
    (updateSessionState s st now).state = st ∨ (updateSessionState s st now) = s := by
  unfold updateSessionState
  split_ifs <;> first
    | exact Or.inr rfl
    | exact Or.inl rfl

/-- Claim C2, amended: while the session is `active`, `resumeSession` is a
no-op, but `startSession` is not: it discards the current session and
returns a fresh `active` session with the newly generated id, zero
`elapsedTime`, zero `shortBreakCount` and empty `shortBreaksTaken`. -/
theorem active_resume_noop_start_restarts :
    (∀ (s : Session) (now : ℤ), s.state = SessionState.active → resumeSession s now = s) ∧
    (∀ (s : Session) (newId : List Char) (t1 t2 : ℤ), s.state = SessionState.active →
      (startSession s newId t1 t2).id = newId ∧
      (startSession s newId t1 t2).state = SessionState.active ∧
      (startSession s newId t1 t2).elapsedTime = 0 ∧
      (startSession s newId t1 t2).shortBreakCount = 0 ∧
      (startSession s newId t1 t2).shortBreaksTaken = []) := by
  constructor
  · intro s now hs
    unfold resumeSession
    rw [if_pos]
    rw [hs]
    intro hcon
    exact SessionState.noConfusion hcon
  · intro s newId t1 t2 _
    refine ⟨rfl, rfl, rfl, rfl, rfl⟩

theorem active_resume_noop_start_restarts_witness :
    resumeSession (Session.mk "a".data 0 0 [] 0 SessionState.active 5 none 0) 9
        = Session.mk "a".data 0 0 [] 0 SessionState.active 5 none 0 ∧
      (startSession (Session.mk "a".data 0 0 [] 0 SessionState.active 5 none 0) "b".data 1 1).elapsedTime = 0 :=
  ⟨active_resume_noop_start_restarts.1 _ 9 (by decide),
    (active_resume_noop_start_restarts.2 (Session.mk "a".data 0 0 [] 0 SessionState.active 5 none 0)
      "b".data 1 1 (by decide)).2.2.1⟩

/-- Claim C2, counterexample: calling `startSession` while the session is `active`
is not a no-op — at this concrete active session with `elapsedTime = 5`,
the session record changes (the replacement has `elapsedTime = 0`). -/
theorem startSession_active_not_noop :
    (Session.mk "a".data 0 0 [] 0 SessionState.active 5 none 0).state = SessionState.active ∧
    startSession (Session.mk "a".data 0 0 [] 0 SessionState.active 5 none 0) "b".data 1 1
      ≠ Session.mk "a".data 0 0 [] 0 SessionState.active 5 none 0 := by
  constructor
  · rfl
  · intro h
    have h5 := congrArg Session.elapsedTime h
    revert h5
    decide

/-- Claim C3: pausing an active session at time `t` and resuming at `t + delta`
leaves `elapsedTime` unchanged, increases `totalPausedTime` by exactly
`delta`, and clears `pauseStartTime`.  The hypothesis `t ≠ 0` reflects that
`Date.now()` is a positive wall-clock timestamp (the source guards the
resume arithmetic with the truthiness of `pauseStartTime`, and `0` is
falsy). -/
theorem pause_resume_elapsed_invariant (s : Session) (t delta : ℤ)
    (hactive : s.state = SessionState.active) (ht : t ≠ 0) :
    (resumeSession (pauseSession s t) (t + delta)).elapsedTime = s.elapsedTime ∧
    (resumeSession (pauseSession s t) (t + delta)).totalPausedTime
      = s.totalPausedTime + delta ∧
    (resumeSession (pauseSession s t) (t + delta)).pauseStartTime = none := by
  have hpause : pauseSession s t =
      { s with pauseStartTime := some t, state := SessionState.paused, stateStartTime := t } := by
    unfold pauseSession updateSessionState
    rw [hactive]
    simp
  rw [hpause]
  unfold resumeSession updateSessionState truthyTime
  simp [ht]

theorem pause_resume_elapsed_invariant_witness :
    ((Session.mk "a".data 0 0 [] 0 SessionState.active 5 none 7).state = SessionState.active
        ∧ (100 : ℤ) ≠ 0) ∧
      ((resumeSession (pauseSession (Session.mk "a".data 0 0 [] 0 SessionState.active 5 none 7) 100) (100 + 40)).elapsedTime = 5 ∧
        (resumeSession (pauseSession (Session.mk "a".data 0 0 [] 0 SessionState.active 5 none 7) 100) (100 + 40)).totalPausedTime = 7 + 40 ∧
        (resumeSession (pauseSession (Session.mk "a".data 0 0 [] 0 SessionState.active 5 none 7) 100) (100 + 40)).pauseStartTime = none) :=
  ⟨⟨by decide, by decide⟩,
    pause_resume_elapsed_invariant (Session.mk "a".data 0 0 [] 0 SessionState.active 5 none 7)
      100 40 (by decide) (by decide)⟩

/-- Claim C5: `handleAlarm` is a no-op — session unchanged, no break started —
whenever the alarm name does not begin with the current session's id, or
the session is not `active`. -/
theorem handleAlarm_stale_or_inactive_noop (s : Session) (alarmName : List Char) (now : ℤ)
    (h : ¬ s.id.isPrefixOf alarmName = true ∨ s.state ≠ SessionState.active) :
    handleAlarm s alarmName now = (s, none) := by
  unfold handleAlarm
  rcases h with h | h
  · simp [h]
  · simp [h]

theorem handleAlarm_stale_or_inactive_noop_witness :
    ((¬ ("abc".data.isPrefixOf "zzz_short_break_0".data) = true ∨
        (Session.mk "abc".data 0 0 [] 0 SessionState.active 5 none 0).state ≠ SessionState.active) ∧
      (¬ ("abc".data.isPrefixOf "abc_short_break_0".data) = true ∨
        (Session.mk "abc".data 0 0 [] 0 SessionState.paused 5 none 0).state ≠ SessionState.active)) ∧
    handleAlarm (Session.mk "abc".data 0 0 [] 0 SessionState.active 5 none 0)
        "zzz_short_break_0".data 77
      = (Session.mk "abc".data 0 0 [] 0 SessionState.active 5 none 0, none) ∧
    handleAlarm (Session.mk "abc".data 0 0 [] 0 SessionState.paused 5 none 0)
        "abc_short_break_0".data 77
      = (Session.mk "abc".data 0 0 [] 0 SessionState.paused 5 none 0, none) :=
  ⟨⟨Or.inl (by decide), Or.inr (by decide)⟩,
    handleAlarm_stale_or_inactive_noop _ _ 77 (Or.inl (by decide)),
    handleAlarm_stale_or_inactive_noop _ _ 77 (Or.inr (by decide))⟩

lemma updateSessionState_state_of_ne (s : Session) (st : SessionState) (now : ℤ)
    (h : ¬ st = s.state) : (updateSessionState s st now).state = st := by
  unfold updateSessionState
  rw [if_neg h]

lemma endShortBreak_state (s : Session) (now : ℤ) (h : s.state = SessionState.shortBreak) :
    (endShortBreak s now).state = SessionState.active := by
  unfold endShortBreak
  rw [if_neg (by simp [h])]
  apply updateSessionState_state_of_ne
  rw [h]
  intro hcon
  exact SessionState.noConfusion hcon

/-- Claim C8: the watchdog poll (run on a 30000 ms interval) forces a short
break to end — transitioning the session to `active` — whenever it
observes the session in `shortBreak` with more than
`shortBreakDuration + 15` seconds elapsed since `stateStartTime`; the
in-process failsafe timeout, armed at `(shortBreakDuration + 5) * 1000` ms
after the break starts, does the same whenever it fires during a short
break. -/
theorem shortBreak_watchdog_forces_active :
    (∀ (s : Session) (settings : Settings) (now : ℤ),
      s.state = SessionState.shortBreak → s.stateStartTime ≠ 0 →
      ((now : ℚ) - (s.stateStartTime : ℚ)) / 1000 > effectiveShortBreakDuration settings + 15 →
      (watchdogPoll s settings now).state = SessionState.active) ∧
    (∀ (s : Session) (now : ℤ), s.state = SessionState.shortBreak →
      (shortBreakFailsafeFire s now).state = SessionState.active) ∧
    startShortBreakWatchdogIntervalMs = 30000 ∧
    (∀ d : ℚ, shortBreakFailsafeDelayMs d = (d + 5) * 1000) := by
  refine ⟨?_, ?_, rfl, fun d => rfl⟩
  · intro s settings now h1 h2 h3
    unfold watchdogPoll
    rw [if_pos ⟨h1, h2⟩, if_pos h3]
    exact endShortBreak_state s now h1
  · intro s now h1
    unfold shortBreakFailsafeFire
    rw [if_pos h1]
    exact endShortBreak_state s now h1

theorem shortBreak_watchdog_forces_active_witness :
    (((Session.mk "a".data 0 1 [] 0 SessionState.shortBreak 5 none 0).state = SessionState.shortBreak ∧
        (Session.mk "a".data 0 1 [] 0 SessionState.shortBreak 5 none 0).stateStartTime ≠ 0 ∧
        ((30001 : ℚ) - ((1 : ℤ) : ℚ)) / 1000 > effectiveShortBreakDuration getDefaultSettings + 15) ∧
      (watchdogPoll (Session.mk "a".data 0 1 [] 0 SessionState.shortBreak 5 none 0)
          getDefaultSettings 30001).state = SessionState.active) ∧
    (shortBreakFailsafeFire (Session.mk "a".data 0 1 [] 0 SessionState.shortBreak 5 none 0)
        30001).state = SessionState.active :=
  ⟨⟨⟨by decide, by decide, by norm_num [effectiveShortBreakDuration, getDefaultSettings]⟩,
    shortBreak_watchdog_forces_active.1 _ getDefaultSettings 30001 (by decide) (by decide)
      (by norm_num [effectiveShortBreakDuration, getDefaultSettings])⟩,
    shortBreak_watchdog_forces_active.2.1 _ 30001 (by decide)⟩

/-- Claim C9: `shortBreakCount` equals the length of `shortBreaksTaken` in every
reachable session: it holds for the session produced by
`createNewSession`, and is preserved by `updateSessionState`,
`recordShortBreak`, `pauseSession`, `resumeSession`, `resetSession` and
the per-second `timerTick`. -/
theorem shortBreakCount_lockstep :
    (∀ (newId : List Char) (now : ℤ), countInv (createNewSession newId now)) ∧
    (∀ (op : SessionOp) (s : Session), countInv s → countInv (applySessionOp op s)) := by
  constructor
  · intro newId now
    unfold countInv createNewSession
    simp
  · intro op s h
    unfold countInv at h ⊢
    cases op with
    | updState st now =>
      show (updateSessionState s st now).shortBreakCount
        = ((updateSessionState s st now).shortBreaksTaken.length : ℤ)
      rw [updateSessionState_shortBreakCount, updateSessionState_shortBreaksTaken]
      exact h
    | record now =>
      show (recordShortBreak s now).shortBreakCount
        = ((recordShortBreak s now).shortBreaksTaken.length : ℤ)
      unfold recordShortBreak
      rw [updateSessionState_shortBreakCount, updateSessionState_shortBreaksTaken]
      simp only [List.length_append, List.length_cons, List.length_nil]
      push_cast
      omega
    | pause now =>
      show (pauseSession s now).shortBreakCount
        = ((pauseSession s now).shortBreaksTaken.length : ℤ)
      unfold pauseSession
      split_ifs
      · exact h
      · rw [updateSessionState_shortBreakCount, updateSessionState_shortBreaksTaken]
        exact h
    | resume now =>
      show (resumeSession s now).shortBreakCount
        = ((resumeSession s now).shortBreaksTaken.length : ℤ)
      unfold resumeSession
      split_ifs
      · exact h
      · rw [updateSessionState_shortBreakCount, updateSessionState_shortBreaksTaken]
        exact h
    | reset newId now =>
      show (resetSession s newId now).shortBreakCount
        = ((resetSession s newId now).shortBreaksTaken.length : ℤ)
      unfold resetSession createNewSession
      simp
    | tick now =>
      show (timerTick s now).shortBreakCount
        = ((timerTick s now).shortBreaksTaken.length : ℤ)
      unfold timerTick
      split_ifs <;> exact h

theorem shortBreakCount_lockstep_witness :
    countInv (createNewSession "a".data 0) ∧
      countInv (applySessionOp (SessionOp.record 7)
        (Session.mk "a".data 0 0 [3] 1 SessionState.active 5 none 0)) :=
  ⟨shortBreakCount_lockstep.1 "a".data 0,
    shortBreakCount_lockstep.2 (SessionOp.record 7)
      (Session.mk "a".data 0 0 [3] 1 SessionState.active 5 none 0) (by decide)⟩

/-! ## Statistics lemmas -/

lemma getBucket_nil (key : List Char) : getBucket [] key = none := rfl

lemma getBucket_cons (k : List Char) (v : DailyStats) (t : StatsMap) (key : List Char) :
    getBucket ((k, v) :: t) key = if k = key then some v else getBucket t key := rfl

lemma bump_entry_apply (key : List Char) (f s l : ℤ) (k : List Char) (v : DailyStats) :
    (fun e : List Char × DailyStats =>
        if e.1 = key then (e.1, bumpBucket e.2 f s l) else e) (k, v)
      = if k = key then (k, bumpBucket v f s l) else (k, v) := rfl

lemma getBucket_eq_none_iff (m : StatsMap) (key : List Char) :
    getBucket m key = none ↔ key ∉ m.map Prod.fst := by
  induction m with
  | nil => simp [getBucket_nil]
  | cons e t ih =>
    obtain ⟨k, v⟩ := e
    rw [getBucket_cons, List.map_cons]
    by_cases h : k = key
    · subst h
      rw [if_pos rfl]
      apply iff_of_false
      · exact fun hc => Option.noConfusion hc
      · intro hc
        exact hc (List.mem_cons_self _ _)
    · rw [if_neg h]
      rw [ih]
      constructor
      · intro hnot hmem
        rcases List.mem_cons.mp hmem with h1 | h1
        · exact h h1.symm
        · exact hnot h1
      · intro hnot hmem
        exact hnot (List.mem_cons_of_mem _ hmem)

lemma mem_of_getBucket_eq_some (m : StatsMap) (key : List Char) (v : DailyStats)
    (h : getBucket m key = some v) : key ∈ m.map Prod.fst := by
  by_contra hmem
  rw [← getBucket_eq_none_iff m key] at hmem
  rw [h] at hmem
  exact Option.noConfusion hmem

lemma getBucket_append_of_none (m m' : StatsMap) (key : List Char)
    (h : getBucket m key = none) : getBucket (m ++ m') key = getBucket m' key := by
  induction m with
  | nil => rfl
  | cons e t ih =>
    obtain ⟨k, v⟩ := e
    rw [getBucket_cons] at h
    by_cases hk : k = key
    · rw [if_pos hk] at h
      exact Option.noConfusion h
    · rw [if_neg hk] at h
      rw [List.cons_append, getBucket_cons, if_neg hk]
      exact ih h

lemma getBucket_map_bump (m : StatsMap) (key : List Char) (f s l : ℤ) :
    getBucket (m.map (fun e => if e.1 = key then (e.1, bumpBucket e.2 f s l) else e)) key
      = (getBucket m key).map (fun v => bumpBucket v f s l) := by
  induction m with
  | nil => rfl
  | cons e t ih =>
    obtain ⟨k, v⟩ := e
    have hhead : (if (k, v).1 = key then ((k, v).1, bumpBucket (k, v).2 f s l) else (k, v))
        = if k = key then (k, bumpBucket v f s l) else (k, v) := rfl
    rw [List.map_cons, hhead]
    by_cases h : k = key
    · rw [if_pos h, getBucket_cons, if_pos h, getBucket_cons, if_pos h]
      rfl
    · rw [if_neg h, getBucket_cons, if_neg h, getBucket_cons, if_neg h]
      exact ih

lemma getBucket_bumpMap (m : StatsMap) (key : List Char) (f s l : ℤ) :
    getBucket (bumpMap m key f s l) key
      = some (bumpBucket ((getBucket m key).getD getDefaultDailyStats) f s l) := by
  simp only [bumpMap]
  by_cases h : (getBucket m key).isSome
  · rw [if_pos h, getBucket_map_bump]
    obtain ⟨v, hv⟩ := Option.isSome_iff_exists.mp h
    rw [hv]
    rfl
  · rw [if_neg h, getBucket_map_bump]
    have hnone : getBucket m key = none := Option.not_isSome_iff_eq_none.mp h
    rw [getBucket_append_of_none m _ key hnone, hnone]
    rw [getBucket_cons, if_pos rfl]
    rfl

lemma map_fst_bump_update (m : StatsMap) (key : List Char) (f s l : ℤ) :
    (m.map (fun e => if e.1 = key then (e.1, bumpBucket e.2 f s l) else e)).map Prod.fst
      = m.map Prod.fst := by
  induction m with
  | nil => rfl
  | cons e t ih =>
    obtain ⟨k, v⟩ := e
    have hhead : (if (k, v).1 = key then ((k, v).1, bumpBucket (k, v).2 f s l) else (k, v))
        = if k = key then (k, bumpBucket v f s l) else (k, v) := rfl
    rw [List.map_cons, hhead]
    by_cases h : k = key
    · rw [if_pos h, List.map_cons, List.map_cons, ih]
    · rw [if_neg h, List.map_cons, List.map_cons, ih]

lemma bumpMap_keys (m : StatsMap) (key : List Char) (f s l : ℤ) :
    (bumpMap m key f s l).map Prod.fst
      = if (getBucket m key).isSome then m.map Prod.fst else m.map Prod.fst ++ [key] := by
  simp only [bumpMap]
  by_cases h : (getBucket m key).isSome
  · rw [if_pos h, if_pos h, map_fst_bump_update]
  · rw [if_neg h, if_neg h, map_fst_bump_update]
    simp

lemma bumpMap_length (m : StatsMap) (key : List Char) (f s l : ℤ)
    (h : (getBucket m key).isSome) : (bumpMap m key f s l).length = m.length := by
  simp only [bumpMap]
  rw [if_pos h, List.length_map]

lemma getBucket_map_pair (ks : List (List Char)) (g : List Char → DailyStats) (key : List Char)
    (h : key ∈ ks) :
    getBucket (ks.map (fun k => (k, g k))) key = some (g key) := by
  induction ks with
  | nil => cases h
  | cons a t ih =>
    rw [List.map_cons, getBucket_cons]
    by_cases hk : a = key
    · rw [if_pos hk, hk]
    · rw [if_neg hk]
      rcases List.mem_cons.mp h with h1 | h1
      · exact absurd h1.symm hk
      · exact ih h1

lemma keepMostRecent_keys_eq (n : ℕ) (m : StatsMap) :
    (keepMostRecent n m).map Prod.fst
      = if n < (m.map Prod.fst).length
        then (((m.map Prod.fst).insertionSort (· ≤ ·)).reverse).take n
        else m.map Prod.fst := by
  simp only [keepMostRecent]
  by_cases h : n < (m.map Prod.fst).length
  · rw [if_pos h, if_pos h, List.map_map]
    have hcomp : (Prod.fst ∘ fun k : List Char =>
        (k, (getBucket m k).getD getDefaultDailyStats)) = id := rfl
    rw [hcomp, List.map_id]
  · rw [if_neg h, if_neg h]

lemma sortedDesc_perm (K : List (List Char)) :
    List.Perm ((K.insertionSort (· ≤ ·)).reverse) K :=
  (List.reverse_perm _).trans (List.perm_insertionSort _ _)

lemma sortedDesc_pairwise (K : List (List Char)) :
    ((K.insertionSort (· ≤ ·)).reverse).Pairwise (· ≥ ·) := by
  rw [List.pairwise_reverse]
  exact (List.sorted_insertionSort (· ≤ ·) K).imp (fun hab => hab)

lemma mem_take_of_countP_lt (L : List (List Char)) (key : List Char) (n : ℕ)
    (hsorted : L.Pairwise (· ≥ ·)) (hnd : L.Nodup) (hmem : key ∈ L)
    (hcnt : L.countP (fun k => decide (key < k)) < n) :
    key ∈ L.take n := by
  by_contra hnot
  have hdrop : key ∈ L.drop n := by
    conv at hmem => rw [← List.take_append_drop n L]
    rcases List.mem_append.mp hmem with h | h
    · exact absurd h hnot
    · exact h
  have hgt : L.Pairwise (· > ·) := by
    refine (hsorted.and hnd).imp ?_
    intro a b hab
    exact lt_of_le_of_ne hab.1 (Ne.symm hab.2)
  rw [← List.take_append_drop n L] at hgt
  have hall : ∀ x ∈ L.take n, key < x := fun x hx =>
    (List.pairwise_append.mp hgt).2.2 x hx key hdrop
  have hlen : n ≤ L.length := by
    by_contra hl
    push_neg at hl
    rw [List.drop_eq_nil_of_le (le_of_lt hl)] at hdrop
    exact absurd hdrop (List.not_mem_nil key)
  have htklen : (L.take n).length = n := by
    rw [List.length_take]
    omega
  have hfilter : (L.take n).filter (fun k => decide (key < k)) = L.take n :=
    List.filter_eq_self.mpr (fun x hx => by simpa using hall x hx)
  have hsub : List.Sublist ((L.take n).filter (fun k => decide (key < k)))
      (L.filter (fun k => decide (key < k))) :=
    (List.take_sublist n L).filter _
  have hge : n ≤ (L.filter (fun k => decide (key < k))).length := by
    calc n = (L.take n).length := htklen.symm
    _ = ((L.take n).filter (fun k => decide (key < k))).length := by rw [hfilter]
    _ ≤ (L.filter (fun k => decide (key < k))).length := hsub.length_le
  rw [← List.countP_eq_length_filter] at hge
  omega

lemma getBucket_keepMostRecent (n : ℕ) (m : StatsMap) (key : List Char) (v : DailyStats)
    (hnd : (m.map Prod.fst).Nodup) (hv : getBucket m key = some v)
    (hcnt : (m.map Prod.fst).countP (fun k => decide (key < k)) < n) :
    getBucket (keepMostRecent n m) key = some v := by
  simp only [keepMostRecent]
  by_cases h : n < (m.map Prod.fst).length
  · rw [if_pos h]
    have hperm := sortedDesc_perm (m.map Prod.fst)
    have hmemR : key ∈ ((m.map Prod.fst).insertionSort (· ≤ ·)).reverse :=
      hperm.mem_iff.mpr (mem_of_getBucket_eq_some m key v hv)
    have hndR : (((m.map Prod.fst).insertionSort (· ≤ ·)).reverse).Nodup :=
      hperm.nodup_iff.mpr hnd
    have hcntR : (((m.map Prod.fst).insertionSort (· ≤ ·)).reverse).countP
        (fun k => decide (key < k)) < n := by
      rw [hperm.countP_eq]
      exact hcnt
    have hkeep := mem_take_of_countP_lt _ key n (sortedDesc_pairwise _) hndR hmemR hcntR
    rw [getBucket_map_pair _ _ key hkeep, hv]
    rfl
  · rw [if_neg h]
    exact hv

lemma keepMostRecent_keys_nodup (n : ℕ) (m : StatsMap)
    (hnd : (m.map Prod.fst).Nodup) : ((keepMostRecent n m).map Prod.fst).Nodup := by
  rw [keepMostRecent_keys_eq]
  by_cases h : n < (m.map Prod.fst).length
  · rw [if_pos h]
    exact (List.take_sublist n _).nodup ((sortedDesc_perm _).nodup_iff.mpr hnd)
  · rw [if_neg h]
    exact hnd

lemma keepMostRecent_keys_countP_le (n : ℕ) (m : StatsMap) (p : List Char → Bool) :
    ((keepMostRecent n m).map Prod.fst).countP p ≤ (m.map Prod.fst).countP p := by
  rw [keepMostRecent_keys_eq]
  by_cases h : n < (m.map Prod.fst).length
  · rw [if_pos h]
    calc ((((m.map Prod.fst).insertionSort (· ≤ ·)).reverse).take n).countP p
        ≤ (((m.map Prod.fst).insertionSort (· ≤ ·)).reverse).countP p :=
          (List.take_sublist n _).countP_le p
    _ = (m.map Prod.fst).countP p := (sortedDesc_perm _).countP_eq p
  · rw [if_neg h]

lemma keepMostRecent_length_le (n : ℕ) (m : StatsMap) :
    (keepMostRecent n m).length ≤ n := by
  have hkeys : (m.map Prod.fst).length = m.length := List.length_map _ _
  simp only [keepMostRecent]
  by_cases h : n < (m.map Prod.fst).length
  · rw [if_pos h, List.length_map, List.length_take]
    omega
  · rw [if_neg h]
    omega

lemma updateStatistics_daily_step (stats : Statistics) (today week : List Char) (f s l : ℤ)
    (hnd : (stats.dailyFocus.map Prod.fst).Nodup)
    (hcnt : (stats.dailyFocus.map Prod.fst).countP (fun k => decide (today < k)) < 30) :
    getBucket (updateStatistics stats today week f s l).dailyFocus today
      = some (bumpBucket ((getBucket stats.dailyFocus today).getD getDefaultDailyStats) f s l) ∧
    ((updateStatistics stats today week f s l).dailyFocus.map Prod.fst).Nodup ∧
    ((updateStatistics stats today week f s l).dailyFocus.map Prod.fst).countP
      (fun k => decide (today < k)) < 30 := by
  have hb := getBucket_bumpMap stats.dailyFocus today f s l
  have hkeys := bumpMap_keys stats.dailyFocus today f s l
  have hnd1 : ((bumpMap stats.dailyFocus today f s l).map Prod.fst).Nodup := by
    rw [hkeys]
    by_cases h : (getBucket stats.dailyFocus today).isSome
    · rw [if_pos h]
      exact hnd
    · rw [if_neg h]
      have hnot : today ∉ stats.dailyFocus.map Prod.fst :=
        (getBucket_eq_none_iff _ _).mp (Option.not_isSome_iff_eq_none.mp h)
      refine List.Nodup.append hnd (List.nodup_singleton today) ?_
      intro a ha hb'
      rw [List.mem_singleton] at hb'
      subst hb'
      exact hnot ha
  have hcnt1 : ((bumpMap stats.dailyFocus today f s l).map Prod.fst).countP
      (fun k => decide (today < k)) < 30 := by
    rw [hkeys]
    by_cases h : (getBucket stats.dailyFocus today).isSome
    · rw [if_pos h]
      exact hcnt
    · rw [if_neg h, List.countP_append]
      have hzero : List.countP (fun k => decide (today < k)) [today] = 0 := by
        simp [List.countP_cons]
      omega
  simp only [updateStatistics, cleanupOldStatistics]
  refine ⟨?_, ?_, ?_⟩
  · exact getBucket_keepMostRecent 30 _ today _ hnd1 hb hcnt1
  · exact keepMostRecent_keys_nodup 30 _ hnd1
  · exact lt_of_le_of_lt (keepMostRecent_keys_countP_le 30 _ _) hcnt1

/-- Claim C4, amended: provided the statistics state's daily keys are distinct
(JavaScript object keys always are) and fewer than 30 of them are
lexicographically greater than the current day's key (so that retention
cleanup does not evict the current day's bucket), calling
`updateStatistics(125, 2, 0)` and then `updateStatistics(0, 0, 1)` on the
same day increases that day's bucket by
`{totalFocusTime: 125, shortBreaksTaken: 2, longBreaksTaken: 1,
sessionsCompleted: 1}`; on each single call, `sessionsCompleted` is
incremented by exactly `1` iff that call's `longBreaks` argument is
positive. -/
theorem updateStatistics_same_day_pair (stats : Statistics) (today week : List Char)
    (hnd : (stats.dailyFocus.map Prod.fst).Nodup)
    (hcnt : (stats.dailyFocus.map Prod.fst).countP (fun k => decide (today < k)) < 30) :
    getBucket (updateStatistics
        (updateStatistics stats today week 125 2 0) today week 0 0 1).dailyFocus today
      = some ((fun b0 => DailyStats.mk (b0.totalFocusTime + 125) (b0.shortBreaksTaken + 2)
          (b0.longBreaksTaken + 1) (b0.sessionsCompleted + 1))
          ((getBucket stats.dailyFocus today).getD getDefaultDailyStats)) ∧
    (getBucket (updateStatistics stats today week 125 2 0).dailyFocus today).map
        DailyStats.sessionsCompleted
      = some (((getBucket stats.dailyFocus today).getD getDefaultDailyStats).sessionsCompleted) ∧
    ∀ f s l : ℤ,
      (getBucket (updateStatistics stats today week f s l).dailyFocus today).map
          DailyStats.sessionsCompleted
        = some (((getBucket stats.dailyFocus today).getD getDefaultDailyStats).sessionsCompleted
            + if 0 < l then 1 else 0) := by
  obtain ⟨h1, hnd1, hcnt1⟩ := updateStatistics_daily_step stats today week 125 2 0 hnd hcnt
  obtain ⟨h2, _, _⟩ := updateStatistics_daily_step
    (updateStatistics stats today week 125 2 0) today week 0 0 1 hnd1 hcnt1
  refine ⟨?_, ?_, ?_⟩
  · rw [h2, h1]
    simp only [Option.getD_some, bumpBucket]
    norm_num
  · rw [h1]
    simp [bumpBucket]
  · intro f s l
    obtain ⟨h3, _, _⟩ := updateStatistics_daily_step stats today week f s l hnd hcnt
    rw [h3]
    simp [bumpBucket]

/-- Claim C7: after any `updateStatistics` call at most 30 daily and at most 12
weekly buckets remain; and starting from a statistics state holding 35
distinct daily keys (among them the current day's), exactly 30 daily keys
survive, every survivor is one of the original keys, and every evicted key
is lexicographically smaller than every surviving key (the oldest keys are
the ones removed). -/
theorem updateStatistics_retention :
    (∀ (stats : Statistics) (today week : List Char) (f s l : ℤ),
      (updateStatistics stats today week f s l).dailyFocus.length ≤ 30 ∧
      (updateStatistics stats today week f s l).weeklyFocus.length ≤ 12) ∧
    (∀ (stats : Statistics) (today week : List Char) (f s l : ℤ),
      (stats.dailyFocus.map Prod.fst).Nodup → stats.dailyFocus.length = 35 →
      today ∈ stats.dailyFocus.map Prod.fst →
      (((updateStatistics stats today week f s l).dailyFocus.map Prod.fst).length = 30 ∧
        (∀ k ∈ (updateStatistics stats today week f s l).dailyFocus.map Prod.fst,
          k ∈ stats.dailyFocus.map Prod.fst) ∧
        (∀ k ∈ stats.dailyFocus.map Prod.fst,
          k ∉ (updateStatistics stats today week f s l).dailyFocus.map Prod.fst →
          ∀ k' ∈ (updateStatistics stats today week f s l).dailyFocus.map Prod.fst,
            k < k'))) := by
  constructor
  · intro stats today week f s l
    simp only [updateStatistics, cleanupOldStatistics]
    exact ⟨keepMostRecent_length_le 30 _, keepMostRecent_length_le 12 _⟩
  · intro stats today week f s l hnd hlen hmem
    have hsome : (getBucket stats.dailyFocus today).isSome := by
      by_contra h
      exact ((getBucket_eq_none_iff _ _).mp (Option.not_isSome_iff_eq_none.mp h)) hmem
    have hkeys1 : (bumpMap stats.dailyFocus today f s l).map Prod.fst
        = stats.dailyFocus.map Prod.fst := by
      rw [bumpMap_keys, if_pos hsome]
    have hKlen : (stats.dailyFocus.map Prod.fst).length = 35 := by
      rw [List.length_map]
      exact hlen
    have hgoalkeys : (updateStatistics stats today week f s l).dailyFocus.map Prod.fst
        = (((stats.dailyFocus.map Prod.fst).insertionSort (· ≤ ·)).reverse).take 30 := by
      simp only [updateStatistics, cleanupOldStatistics]
      rw [keepMostRecent_keys_eq, hkeys1, if_pos (by omega)]
    rw [hgoalkeys]
    have hperm := sortedDesc_perm (stats.dailyFocus.map Prod.fst)
    have hndR := hperm.nodup_iff.mpr hnd
    have hRlen : (((stats.dailyFocus.map Prod.fst).insertionSort (· ≤ ·)).reverse).length = 35 := by
      rw [hperm.length_eq]
      exact hKlen
    have hgtR : (((stats.dailyFocus.map Prod.fst).insertionSort (· ≤ ·)).reverse).Pairwise
        (· > ·) := by
      refine ((sortedDesc_pairwise (stats.dailyFocus.map Prod.fst)).and hndR).imp ?_
      intro a b hab
      exact lt_of_le_of_ne hab.1 (Ne.symm hab.2)
    refine ⟨?_, ?_, ?_⟩
    · rw [List.length_take, hRlen]
      norm_num
    · intro k hk
      exact hperm.mem_iff.mp ((List.take_sublist 30 _).subset hk)
    · intro k hkK hknot k' hk'
      have hkR : k ∈ ((stats.dailyFocus.map Prod.fst).insertionSort (· ≤ ·)).reverse :=
        hperm.mem_iff.mpr hkK
      have hkdrop : k ∈ (((stats.dailyFocus.map Prod.fst).insertionSort (· ≤ ·)).reverse).drop 30 := by
        conv at hkR => rw [← List.take_append_drop 30
          (((stats.dailyFocus.map Prod.fst).insertionSort (· ≤ ·)).reverse)]
        rcases List.mem_append.mp hkR with h | h
        · exact absurd h hknot
        · exact h
      have hsplit := hgtR
      rw [← List.take_append_drop 30
        (((stats.dailyFocus.map Prod.fst).insertionSort (· ≤ ·)).reverse)] at hsplit
      exact (List.pairwise_append.mp hsplit).2.2 k' hk' k hkdrop

/-- Claim C10: the read accessors never reject: for every store response each of
`loadSessionState`, `loadSettings` and `loadStatistics` resolves (is
`Except.ok`), and on a read error or an absent key they resolve with a
fresh idle session, the default settings, and the empty statistics
structure, respectively. -/
theorem load_accessors_never_reject :
    (∀ (r : StoreResult Session) (newId : List Char) (now : ℤ),
      ∃ v, loadSessionState r newId now = Except.ok v) ∧
    (∀ (newId : List Char) (now : ℤ),
      loadSessionState StoreResult.storeError newId now = Except.ok (createNewSession newId now) ∧
      loadSessionState StoreResult.missing newId now = Except.ok (createNewSession newId now) ∧
      (createNewSession newId now).state = SessionState.idle ∧
      (createNewSession newId now).elapsedTime = 0) ∧
    (∀ r : StoreResult RawSettings, ∃ v, loadSettings r = Except.ok v) ∧
    (loadSettings StoreResult.storeError = Except.ok getDefaultSettings ∧
      loadSettings StoreResult.missing = Except.ok getDefaultSettings ∧
      validateSettings none = getDefaultSettings ∧
      ∀ raw, loadSettings (StoreResult.found raw) = Except.ok (validateSettings (some raw))) ∧
    (∀ r : StoreResult Statistics, ∃ v, loadStatistics r = Except.ok v) ∧
    (loadStatistics StoreResult.storeError = Except.ok getDefaultStatistics ∧
      loadStatistics StoreResult.missing = Except.ok getDefaultStatistics) := by
  refine ⟨?_, ?_, ?_, ⟨rfl, rfl, rfl, fun raw => rfl⟩, ?_, ⟨rfl, rfl⟩⟩
  · intro r newId now
    cases r <;> exact ⟨_, rfl⟩
  · intro newId now
    exact ⟨rfl, rfl, rfl, rfl⟩
  · intro r
    cases r <;> exact ⟨_, rfl⟩
  · intro r
    cases r <;> exact ⟨_, rfl⟩

/-- Claim C4, counterexample: starting from a statistics state whose 30 daily
keys are all greater than the current day's key, the two same-day calls do
not increase the day's bucket by `{125, 2, 1, 1}` — retention cleanup
evicts the current day's bucket on every call, so after both calls the
bucket is absent entirely. -/
theorem updateStatistics_any_state_counterexample :
    (futureStats.dailyFocus.map Prod.fst).length = 30 ∧
    getBucket (updateStatistics (updateStatistics futureStats dec31 w01 125 2 0)
        dec31 w01 0 0 1).dailyFocus dec31 = none ∧
    ¬ getBucket (updateStatistics (updateStatistics futureStats dec31 w01 125 2 0)
        dec31 w01 0 0 1).dailyFocus dec31
      = some (DailyStats.mk 125 2 1 1) := by
  have hnone : getBucket (updateStatistics (updateStatistics futureStats dec31 w01 125 2 0)
      dec31 w01 0 0 1).dailyFocus dec31 = none := by decide
  refine ⟨by decide, hnone, ?_⟩
  intro h
  rw [hnone] at h
  exact Option.noConfusion h

theorem updateStatistics_same_day_pair_witness :
    ((getDefaultStatistics.dailyFocus.map Prod.fst).Nodup ∧
      (getDefaultStatistics.dailyFocus.map Prod.fst).countP
        (fun k => decide (dec31 < k)) < 30) ∧
    getBucket (updateStatistics (updateStatistics getDefaultStatistics dec31 w01 125 2 0)
        dec31 w01 0 0 1).dailyFocus dec31
      = some ((fun b0 => DailyStats.mk (b0.totalFocusTime + 125) (b0.shortBreaksTaken + 2)
          (b0.longBreaksTaken + 1) (b0.sessionsCompleted + 1))
          ((getBucket getDefaultStatistics.dailyFocus dec31).getD getDefaultDailyStats)) :=
  ⟨⟨by decide, by decide⟩,
    (updateStatistics_same_day_pair getDefaultStatistics dec31 w01 (by decide) (by decide)).1⟩

theorem updateStatistics_retention_witness :
    ((updateStatistics futureStats dec31 w01 1 2 3).dailyFocus.length ≤ 30 ∧
      (updateStatistics futureStats dec31 w01 1 2 3).weeklyFocus.length ≤ 12) ∧
    ((thirtyFiveStats.dailyFocus.map Prod.fst).Nodup ∧
      thirtyFiveStats.dailyFocus.length = 35 ∧
      "2026-02-05".data ∈ thirtyFiveStats.dailyFocus.map Prod.fst) ∧
    (((updateStatistics thirtyFiveStats "2026-02-05".data w01 60 0 0).dailyFocus.map
        Prod.fst).length = 30 ∧
      (∀ k ∈ (updateStatistics thirtyFiveStats "2026-02-05".data w01 60 0 0).dailyFocus.map
          Prod.fst, k ∈ thirtyFiveStats.dailyFocus.map Prod.fst) ∧
      (∀ k ∈ thirtyFiveStats.dailyFocus.map Prod.fst,
        k ∉ (updateStatistics thirtyFiveStats "2026-02-05".data w01 60 0 0).dailyFocus.map
          Prod.fst →
        ∀ k' ∈ (updateStatistics thirtyFiveStats "2026-02-05".data w01 60 0 0).dailyFocus.map
          Prod.fst, k < k')) :=
  ⟨updateStatistics_retention.1 futureStats dec31 w01 1 2 3,
    ⟨by decide, by decide, by decide⟩,
    updateStatistics_retention.2 thirtyFiveStats "2026-02-05".data w01 60 0 0
      (by decide) (by decide) (by decide)⟩
